import Mathlib

/-!
Verification development for the aitools proof-search core.

The development shallowly embeds the inference engine of the repository:
the term model, substitutions and unification (spec section 3 and 4.1),
the knowledge base with its knowledge retriever and prover dispatch
(src/aitools/proofs/knowledge_base.py), listener firing
(src/aitools/proofs/listeners.py) and the concurrency harness
(src/aitools/utils/asynctools.py).  Stateful and asynchronous code is
modelled by explicit state passing: an asynchronous stream becomes the
list of items it emits before it either finishes or raises, and a
raising code path becomes an Except value.
-/

namespace Aitools

/-- Modelled from the spec: a Variable is identity only and carries a
reference to a Language (naming scope).  The language and an index inside
it form the identity.  The class aitools.logic.core is not under src. -/
structure VarId where
  lang : Nat
  idx : Nat
deriving DecidableEq

/-- Modelled from the spec: the host value carried by a Wrapper term
(number, string, and similar values lifted into term space). -/
inductive HostValue where
  | str : String → HostValue
  | int : Int → HostValue
deriving DecidableEq

/-- Modelled from the spec: Term is a recursive tagged value with four
variants, Variable, Constant (opaque named atom, equal by identity,
identified here by a numeric id), Wrapper and Expression (ordered tuple
of children).  The class aitools.logic.core.LogicObject is not under
src. -/
inductive LogicObject where
  | var : VarId → LogicObject
  | const : Nat → LogicObject
  | wrap : HostValue → LogicObject
  | expr : List LogicObject → LogicObject

mutual

/-- Boolean structural equality on terms (used to build decidable
equality, which the automatic deriving does not provide for this nested
inductive type). -/
def lobeq : LogicObject → LogicObject → Bool
  | .var v, .var w => decide (v = w)
  | .const k, .const k2 => decide (k = k2)
  | .wrap h, .wrap h2 => decide (h = h2)
  | .expr cs, .expr ds => lobeqList cs ds
  | _, _ => false

/-- Boolean structural equality on lists of terms. -/
def lobeqList : List LogicObject → List LogicObject → Bool
  | [], [] => true
  | c :: cs, d :: ds => lobeq c d && lobeqList cs ds
  | _, _ => false

end

mutual

theorem lobeq_iff : ∀ (a b : LogicObject), lobeq a b = true ↔ a = b
  | .var v, .var w => by simp [lobeq]
  | .var _, .const _ => by simp [lobeq]
  | .var _, .wrap _ => by simp [lobeq]
  | .var _, .expr _ => by simp [lobeq]
  | .const _, .var _ => by simp [lobeq]
  | .const k, .const k2 => by simp [lobeq]
  | .const _, .wrap _ => by simp [lobeq]
  | .const _, .expr _ => by simp [lobeq]
  | .wrap _, .var _ => by simp [lobeq]
  | .wrap _, .const _ => by simp [lobeq]
  | .wrap h, .wrap h2 => by simp [lobeq]
  | .wrap _, .expr _ => by simp [lobeq]
  | .expr _, .var _ => by simp [lobeq]
  | .expr _, .const _ => by simp [lobeq]
  | .expr _, .wrap _ => by simp [lobeq]
  | .expr cs, .expr ds => by simpa [lobeq] using lobeqList_iff cs ds

theorem lobeqList_iff : ∀ (as bs : List LogicObject), lobeqList as bs = true ↔ as = bs
  | [], [] => by simp [lobeqList]
  | [], _ :: _ => by simp [lobeqList]
  | _ :: _, [] => by simp [lobeqList]
  | a :: as, b :: bs => by
      simp [lobeqList, Bool.and_eq_true, lobeq_iff a b, lobeqList_iff as bs]

end

instance : DecidableEq LogicObject := fun a b =>
  decidable_of_iff (lobeq a b = true) (lobeq_iff a b)

mutual

/-- Structural size of a term, used as a fuel bound for the non-structural
recursions below (resolution through a substitution). -/
def termSize : LogicObject → Nat
  | .var _ => 1
  | .const _ => 1
  | .wrap _ => 1
  | .expr cs => 1 + termSizeList cs

/-- Structural size of a list of terms. -/
def termSizeList : List LogicObject → Nat
  | [] => 0
  | c :: cs => termSize c + termSizeList cs

end

/-- Modelled from the spec: one variable equivalence class of a
substitution, with an optional bound representative term. -/
structure SubstClass where
  vars : List VarId
  head : Option LogicObject
deriving DecidableEq

/-- Modelled from the spec: a Substitution is a set of variable
equivalence classes, each with an optional bound term.  The class
aitools.logic.unification.Substitution is not under src. -/
structure Substitution where
  classes : List SubstClass
deriving DecidableEq

/-- The empty substitution. -/
def Substitution.empty : Substitution := ⟨[]⟩

/-- The class a variable belongs to, if any. -/
def Substitution.classFor (s : Substitution) (v : VarId) : Option SubstClass :=
  s.classes.find? (fun c => c.vars.contains v)

/-- Size measure of a substitution, used for fuel bounds. -/
def substSize (s : Substitution) : Nat :=
  s.classes.foldr
    (fun c acc =>
      1 + c.vars.length + (match c.head with | some h => termSize h | none => 0) + acc) 0

/-- Resolve a term through a substitution to its current representative:
a variable bound in its class resolves (transitively) to the bound term,
an unbound variable resolves to the first variable of its class, any
other term resolves to itself.  The fuel bounds the chain of transitive
variable bindings; in the source the occurs-check invariant makes the
chain finite. -/
def Substitution.resolve (s : Substitution) : Nat → LogicObject → LogicObject
  | 0, t => t
  | fuel + 1, t =>
    match t with
    | .var v =>
      match s.classFor v with
      | some c =>
        match c.head with
        | some h => s.resolve fuel h
        | none => .var (c.vars.headD v)
      | none => .var v
    | other => other

/-- Apply a substitution to a term: rewrite each variable by its class
representative, recursively.  The fuel bounds the rewriting depth; in the
source termination is guaranteed by the idempotence invariant. -/
def Substitution.applyToF (s : Substitution) : Nat → LogicObject → LogicObject
  | 0, t => t
  | fuel + 1, t =>
    match t with
    | .var v =>
      match s.classFor v with
      | some c =>
        match c.head with
        | some h => s.applyToF fuel h
        | none => .var (c.vars.headD v)
      | none => .var v
    | .const k => .const k
    | .wrap h => .wrap h
    | .expr cs => .expr (cs.map (s.applyToF fuel))

/-- Fuel large enough for every application arising from a well-formed
substitution in this development. -/
def applyFuel (s : Substitution) (t : LogicObject) : Nat :=
  (substSize s + 2) * (substSize s + 2) + termSize t

/-- Substitution.apply_to of the source, with the fuel fixed. -/
def Substitution.applyTo (s : Substitution) (t : LogicObject) : LogicObject :=
  s.applyToF (applyFuel s t) t

/-- Variables equivalent to the given one under a substitution (its
class, or the singleton of the variable itself). -/
def Substitution.classVars (s : Substitution) (v : VarId) : List VarId :=
  match s.classFor v with
  | some c => c.vars
  | none => [v]

mutual

/-- Does the term mention one of the given variables (syntactically)? -/
def containsAny (vs : List VarId) : LogicObject → Bool
  | .var w => vs.contains w
  | .const _ => false
  | .wrap _ => false
  | .expr cs => containsAnyList vs cs

/-- List version of containsAny. -/
def containsAnyList (vs : List VarId) : List LogicObject → Bool
  | [] => false
  | c :: cs => containsAny vs c || containsAnyList vs cs

end

/-- Occurs check used by unification rule 3: the other term contains the
variable (or a variable of its class) under the substitution. -/
def occursIn (s : Substitution) (v : VarId) (t : LogicObject) : Bool :=
  containsAny (s.classVars v) (s.applyTo t)

/-- Modelled from the spec: bind the class of a variable.  When the bound
term is itself a variable the two classes are merged (a null binding
merging them into one class when neither has a head); otherwise the class
head is set to the term. -/
def Substitution.bindVar (s : Substitution) (v : VarId) (t : LogicObject) : Substitution :=
  match t with
  | .var w =>
    let cv := (s.classFor v).getD ⟨[v], none⟩
    let cw := (s.classFor w).getD ⟨[w], none⟩
    if cv.vars.contains w then s
    else
      ⟨⟨cv.vars ++ cw.vars, match cv.head with | some h => some h | none => cw.head⟩ ::
        s.classes.filter (fun c => !(c.vars.contains v || c.vars.contains w))⟩
  | other =>
    let cv := (s.classFor v).getD ⟨[v], none⟩
    ⟨⟨cv.vars, some other⟩ :: s.classes.filter (fun c => !(c.vars.contains v))⟩

/-- Modelled from the spec, section 4.1: one step of unification.  Each
operand is first resolved through the current substitution; equal
variables unify with no change; a variable against a term passes the
occurs check and binds; compounds unify childwise threading the
substitution; constants and wrappers unify iff equal.  The fuel bounds
the recursion; the source recursion terminates because resolution
expands each variable finitely often. -/
def unifyF : Nat → LogicObject → LogicObject → Substitution → Option Substitution
  | 0, _, _, _ => none
  | fuel + 1, a, b, s =>
    let ra := s.resolve (s.classes.length + 1) a
    let rb := s.resolve (s.classes.length + 1) b
    match ra, rb with
    | .var v, .var w =>
      if v = w then some s
      else if (s.classVars v).contains w then some s
      else some (s.bindVar v (.var w))
    | .var v, t =>
      if occursIn s v t then none else some (s.bindVar v t)
    | t, .var w =>
      if occursIn s w t then none else some (s.bindVar w t)
    | .expr [], .expr [] => some s
    | .expr (c :: cs), .expr (d :: ds) =>
      if cs.length = ds.length then
        match unifyF fuel c d s with
        | some s2 => unifyF fuel (.expr cs) (.expr ds) s2
        | none => none
      else none
    | .const k, .const k2 => if k = k2 then some s else none
    | .wrap h, .wrap h2 => if h = h2 then some s else none
    | _, _ => none

/-- Fuel for a top-level unification, generous for every term reached in
this development. -/
def unifyFuel (a b : LogicObject) (s : Substitution) : Nat :=
  let n := termSize a + termSize b + substSize s + 4
  n * n

/-- Substitution.unify of the source: computes the most general unifier
extending the previous substitution, or fails.  A missing previous
substitution stands for the empty one, as in the source. -/
def Substitution.unify (a b : LogicObject) (previous : Option Substitution) : Option Substitution :=
  let s := previous.getD Substitution.empty
  unifyF (unifyFuel a b s) a b s

mutual

/-- Modelled from the spec: normalize_variables replaces every variable
with a fresh variable of the target language, the same source variable
mapping to the same fresh variable throughout one normalization, and
returns the mapping used.  Fresh variables are numbered from the given
counter; each call site of this development uses a language distinct
from every other variable in scope, which models freshness of the
identities allocated by the source.  The function
aitools.logic.utils.normalize_variables is not under src. -/
def normalizeWith (lang : Nat) :
    LogicObject → List (VarId × VarId) → Nat → LogicObject × List (VarId × VarId) × Nat
  | .var v, mapping, next =>
    match mapping.find? (fun p => p.fst = v) with
    | some p => (.var p.snd, mapping, next)
    | none => (.var ⟨lang, next⟩, mapping ++ [(v, ⟨lang, next⟩)], next + 1)
  | .const k, mapping, next => (.const k, mapping, next)
  | .wrap h, mapping, next => (.wrap h, mapping, next)
  | .expr cs, mapping, next =>
    let r := normalizeListWith lang cs mapping next
    (.expr r.fst, r.snd)

/-- List version of normalizeWith, threading the mapping and counter. -/
def normalizeListWith (lang : Nat) :
    List LogicObject → List (VarId × VarId) → Nat → List LogicObject × List (VarId × VarId) × Nat
  | [], mapping, next => ([], mapping, next)
  | c :: cs, mapping, next =>
    let r := normalizeWith lang c mapping next
    let rs := normalizeListWith lang cs r.snd.fst r.snd.snd
    (r.fst :: rs.fst, rs.snd)

end

/-- Top level normalization: structurally identical term with every
variable replaced by a fresh variable of the target language, together
with the mapping used. -/
def normalizeVariables (t : LogicObject) (lang : Nat) : LogicObject × List (VarId × VarId) :=
  let r := normalizeWith lang t [] 0
  (r.fst, r.snd.fst)

/-- Errors raised by the engine, as an explicit value.  Each constructor
stands for one Python exception type raised by the embedded code; a user
handler raising carries an arbitrary code distinguishing its exception
instance. -/
inductive PyError where
  | notImplementedError
  | runtimeError
  | valueError
  | typeError
  | unsafeOperationException
  | handlerException : Nat → PyError
deriving DecidableEq

/-- An asynchronous stream, embedded as the list of items it yields in
order, followed by an optional exception it raises after the last
item. -/
structure AStream (α : Type) where
  items : List α
  error : Option PyError

/-- Multiplex of asynctools.multiplex (src/aitools/utils/asynctools.py,
lines 30 to 45): every source is wrapped in a collect task pushing its
items into a shared queue and finally a poison pill; the merged stream
yields until every pill arrived.  Two consequences of the source are kept
faithfully here.  First, cross-source item order depends on scheduling
and is unspecified (spec section 5); this embedding fixes the
linearization that concatenates the sources, and every ordering fact
proved below involves at most one source with any item.  Second, a
source that raises still pushes its pill (the finally clause of collect,
lines 20 to 27), while the exception itself is stored in the task object
created by asyncio.create_task, which no code ever awaits: the merged
stream therefore completes without raising, and the source exception is
dropped. -/
def multiplex (sources : List (AStream α)) : AStream α :=
  ⟨(sources.map AStream.items).flatten, none⟩

/-- Inference rule tag of a proof: the built-in knowledge retriever, a
registered prover (by id), a Pondering record (the listener, by id,
tagged with the triggering formula, src/aitools/proofs/listeners.py lines
43 to 46) or a TriggeringFormula marker (lines 25 to 27). -/
inductive InferenceRule where
  | knowledgeRetriever
  | proverRule : Nat → InferenceRule
  | pondering : Nat → LogicObject → InferenceRule
  | triggeringFormula
deriving DecidableEq

/-- Modelled from the spec: a Proof is an immutable quadruple of
inference rule, conclusion, substitution and ordered premise proofs.
The class aitools.proofs.provers.Proof is not under src (only the legacy
module src/aitools/proofs/provers.py shows its construction). -/
inductive Proof where
  | mk : InferenceRule → LogicObject → Substitution → List Proof → Proof

/-- The inference rule of a proof. -/
def Proof.inferenceRule : Proof → InferenceRule
  | .mk r _ _ _ => r

/-- The conclusion of a proof. -/
def Proof.conclusion : Proof → LogicObject
  | .mk _ c _ _ => c

/-- The substitution of a proof. -/
def Proof.substitution : Proof → Substitution
  | .mk _ _ s _ => s

/-- The premises of a proof. -/
def Proof.premises : Proof → List Proof
  | .mk _ _ _ ps => ps

/-- A premises attribute that is either a single Proof or a collection
of Proofs (the Union type of FormulaSubstitutionPremises,
src/aitools/proofs/listeners.py line 40). -/
inductive ProofOrProofs where
  | single : Proof → ProofOrProofs
  | many : List Proof → ProofOrProofs

/-- A dynamically typed Python value as returned by a listener handler:
None, a LogicObject, a Substitution, a Proof, a FormulaSubstitution
record, a FormulaSubstitutionPremises record, a tuple, or a list (also
standing for a generator).  This is the value space inspected by the
shape dispatch of Listener.ponder (src/aitools/proofs/listeners.py lines
77 to 125). -/
inductive PyObj where
  | pyNone : PyObj
  | term : LogicObject → PyObj
  | substObj : Substitution → PyObj
  | proofObj : Proof → PyObj
  | fs : LogicObject → Substitution → PyObj
  | fsp : LogicObject → Substitution → ProofOrProofs → PyObj
  | tup : List PyObj → PyObj
  | pyList : List PyObj → PyObj

/-- The isinstance check against LogicObject used by the shape dispatch
(a LogicWrapper is a LogicObject subclass, so only the term constructor
satisfies it). -/
def PyObj.isLogicObject : PyObj → Bool
  | .term _ => true
  | _ => false

/-- Handler argument modes (src/aitools/proofs/components.py declares
the enum; its members appear throughout src/tests/proofs). -/
inductive HandlerArgumentMode where
  | raw
  | map
  | mapUnwrapped
  | mapUnwrappedRequired
  | mapNoVariables
  | mapUnwrappedNoVariables
deriving DecidableEq

/-- Handler safety levels. -/
inductive HandlerSafety where
  | safe
  | totallyUnsafe
deriving DecidableEq

/-- A value passed to a handler parameter in one of the mapping modes:
either a term, or the host value of an unwrapped Wrapper. -/
inductive MappedArg where
  | obj : LogicObject → MappedArg
  | hostVal : HostValue → MappedArg
deriving DecidableEq

/-- The named arguments a handler is invoked with: the raw mode passes
the formula and the substitution, the mapping modes pass one value per
trigger variable (keyed here by the source variable of the listened
formula, standing for its name). -/
inductive HandlerArgs where
  | raw : LogicObject → Substitution → HandlerArgs
  | mapped : List (VarId × MappedArg) → HandlerArgs
deriving DecidableEq

/-- Is the term a Wrapper? -/
def isWrapperObj : LogicObject → Bool
  | .wrap _ => true
  | _ => false

/-- Is the term a Variable? -/
def isVariableObj : LogicObject → Bool
  | .var _ => true
  | _ => false

/-- The value bound to one trigger variable under the unifier: the
normalization mapping carries the fresh variable standing for the source
variable, and the unifier is applied to it. -/
def mappedBound (unifier : Substitution) (p : VarId × VarId) : LogicObject :=
  unifier.applyTo (.var p.snd)

/-- Unwrap a Wrapper to its host value, pass any other term as is. -/
def unwrapArg : LogicObject → MappedArg
  | .wrap h => .hostVal h
  | t => .obj t

/-- Modelled from the spec, section 6: Component._extract_args_by_name
(src/aitools/proofs/components.py, not under src).  RAW passes formula
and substitution as is; MAP passes the bound term of each trigger
variable under the unifier; MAP_UNWRAPPED unwraps Wrapper values;
MAP_UNWRAPPED_REQUIRED refuses (a ValueError, caught by the caller) if
any bound value is not a Wrapper; MAP_NO_VARIABLES refuses if any bound
value is itself a Variable; MAP_UNWRAPPED_NO_VARIABLES refuses on
variables and unwraps Wrapper values (per the tests
test_listener_argument_mode_map_unwrapped_no_variables_works_when_no_variables_are_passed,
where a plain constant is passed through un-refused). -/
def extractArgsByName (mode : HandlerArgumentMode) (formula : LogicObject)
    (unifier : Substitution) (mapping : List (VarId × VarId)) : Except Unit HandlerArgs :=
  match mode with
  | .raw => .ok (.raw formula unifier)
  | .map => .ok (.mapped (mapping.map (fun p => (p.fst, .obj (mappedBound unifier p)))))
  | .mapUnwrapped =>
    .ok (.mapped (mapping.map (fun p => (p.fst, unwrapArg (mappedBound unifier p)))))
  | .mapUnwrappedRequired =>
    if (mapping.map (mappedBound unifier)).all isWrapperObj then
      .ok (.mapped (mapping.map (fun p => (p.fst, unwrapArg (mappedBound unifier p)))))
    else .error ()
  | .mapNoVariables =>
    if (mapping.map (mappedBound unifier)).any isVariableObj then .error ()
    else .ok (.mapped (mapping.map (fun p => (p.fst, .obj (mappedBound unifier p)))))
  | .mapUnwrappedNoVariables =>
    if (mapping.map (mappedBound unifier)).any isVariableObj then .error ()
    else .ok (.mapped (mapping.map (fun p => (p.fst, unwrapArg (mappedBound unifier p)))))

/-- A forward-chaining listener (src/aitools/proofs/listeners.py).  The
handler is the user function: it receives its named arguments and either
returns a Python value or raises.  The language field is the private
language of the component, into which the listened formula is normalized
at each firing. -/
structure Listener where
  id : Nat
  language : Nat
  listened_formula : LogicObject
  handler : HandlerArgs → Except PyError PyObj
  argument_mode : HandlerArgumentMode
  pure : Bool
  safety : HandlerSafety

/-- The premises component of a tuple item or of a
FormulaSubstitutionPremises record: a single Proof is wrapped into a one
element tuple, a collection of proofs is taken as is
(src/aitools/proofs/listeners.py lines 102 to 104 and 115 to 118).
Collections whose elements are not all proofs cannot be represented in
the typed premises field of the embedded Proof; the source would store
them unchecked, which no claim exercises. -/
def premisesOf : PyObj → Option (List Proof)
  | .proofObj p => some [p]
  | .pyList xs => xs.mapM (fun x => match x with | .proofObj p => some p | _ => none)
  | .tup xs => xs.mapM (fun x => match x with | .proofObj p => some p | _ => none)
  | _ => none

/-- Interpretation of one item of a handler result
(src/aitools/proofs/listeners.py lines 95 to 125): a pair is conclusion
and substitution; a triple additionally carries premises; a tuple of any
other length raises ValueError; a LogicObject is a conclusion under the
trigger unifier with no extra premises; a FormulaSubstitution record is
the pair; a FormulaSubstitutionPremises record is the triple; any other
value raises ValueError.  A pair or triple whose conclusion slot is not
a LogicObject or whose substitution slot is not a Substitution would be
stored unchecked by the source; the typed embedding reports it as
typeError, which no claim exercises. -/
def interpretItem (unifier : Substitution) :
    PyObj → Except PyError (LogicObject × Substitution × List Proof)
  | .tup [.term c, .substObj s] => .ok (c, s, [])
  | .tup [.term c, .substObj s, third] =>
    match premisesOf third with
    | some ps => .ok (c, s, ps)
    | none => .error .typeError
  | .tup xs =>
    if xs.length = 2 ∨ xs.length = 3 then .error .typeError else .error .valueError
  | .term c => .ok (c, unifier, [])
  | .fs c s => .ok (c, s, [])
  | .fsp c s (.single p) => .ok (c, s, [p])
  | .fsp c s (.many ps) => .ok (c, s, ps)
  | _ => .error .valueError

/-- The single-value wrapping condition of Listener.ponder
(src/aitools/proofs/listeners.py lines 80 to 90): a LogicObject, a
FormulaSubstitution, a FormulaSubstitutionPremises, or a tuple of length
two or three that is not made only of LogicObjects, is wrapped so that
it is treated as one item. -/
def shouldWrapSingle : PyObj → Bool
  | .term _ => true
  | .fs _ _ => true
  | .fsp _ _ _ => true
  | .tup xs => (decide (xs.length = 2) || decide (xs.length = 3)) && !(xs.all PyObj.isLogicObject)
  | _ => false

/-- The items a handler result is decomposed into: a wrapped single
value is one item; otherwise an iterable (tuple, list or generator) is
iterated; iterating any other value raises TypeError. -/
def resultToItems (result : PyObj) : Except PyError (List PyObj) :=
  if shouldWrapSingle result then .ok [result]
  else
    match result with
    | .tup xs => .ok xs
    | .pyList xs => .ok xs
    | _ => .error .typeError

/-- The stream of proofs built from the interpreted items
(src/aitools/proofs/listeners.py lines 95 to 134): each item yields a
proof whose inference rule is the Pondering record of the listener
tagged with the triggering formula and whose premises are the current
value of the loop variable named proof in the source followed by the
extra premises of the item.  The source rebinds that variable to each
emitted proof (line 127 assigns to the same name that held the
triggering proof), so only the first item has the triggering proof as
first premise, and every later item has the previously emitted proof.
The prev parameter carries that loop variable.  An invalid item raises
and ends the stream. -/
def itemsToProofs (listenerId : Nat) (formula : LogicObject) (unifier : Substitution)
    (prev : Proof) : List PyObj → AStream Proof
  | [] => ⟨[], none⟩
  | item :: rest =>
    match interpretItem unifier item with
    | .error e => ⟨[], some e⟩
    | .ok (c, s, ps) =>
      let newProof := Proof.mk (.pondering listenerId formula) c s (prev :: ps)
      let tail := itemsToProofs listenerId formula unifier newProof rest
      ⟨newProof :: tail.items, tail.error⟩

/-- The processing of a handler return value
(src/aitools/proofs/listeners.py lines 77 to 134): a None return yields
nothing, otherwise the value is decomposed into items and each item is
interpreted into a proof. -/
def handleResult (lid : Nat) (formula : LogicObject) (unifier : Substitution)
    (trigger : Proof) (result : PyObj) : AStream Proof :=
  match result with
  | .pyNone => ⟨[], none⟩
  | other =>
    match resultToItems other with
    | .error e => ⟨[], some e⟩
    | .ok items => itemsToProofs lid formula unifier trigger items

/-- The body of Listener.ponder after the safety gate
(src/aitools/proofs/listeners.py lines 57 to 134): normalize the
listened formula into the private language of the listener, unify it
with the conclusion of the triggering proof under the substitution of
that proof, silently stop if unification or argument extraction refuses,
invoke the handler (whose exception propagates), then decompose and
interpret the result. -/
def Listener.ponderBody (l : Listener) (proof : Proof) : AStream Proof :=
  let formula := proof.conclusion
  let norm := normalizeVariables l.listened_formula l.language
  match Substitution.unify formula norm.fst (some proof.substitution) with
  | none => ⟨[], none⟩
  | some unifier =>
    match extractArgsByName l.argument_mode formula unifier norm.snd with
    | .error _ => ⟨[], none⟩
    | .ok args =>
      match l.handler args with
      | .error e => ⟨[], some e⟩
      | .ok result => handleResult l.id formula unifier proof result

/-- Listener.ponder (src/aitools/proofs/listeners.py lines 51 to 134):
the safety gate raises UnsafeOperationException for a totally unsafe
listener in a hypothetical context, and otherwise the body runs. -/
def Listener.ponder (l : Listener) (proof : Proof) (hypothetical : Bool) : AStream Proof :=
  match hypothetical, l.safety with
  | true, .totallyUnsafe => ⟨[], some .unsafeOperationException⟩
  | _, _ => l.ponderBody proof

/-- A backward-chaining prover (contract of spec section 3; the class
aitools.proofs.provers.Prover is not under src).  Its prove method
produces a lazy stream of proofs for a goal under a previous
substitution; registered provers are opaque to this development, so the
method is an abstract function of goal and previous substitution (the
knowledge base argument the source also passes is not modelled, since no
claim depends on a prover calling back into the base). -/
structure Prover where
  id : Nat
  listened_formula : LogicObject
  prove : LogicObject → Substitution → AStream Proof
  argument_mode : HandlerArgumentMode
  pure : Bool
  safety : HandlerSafety

/-- The knowledge base (src/aitools/proofs/knowledge_base.py): formula
storage, registered provers and listeners (each held by the trivial
DummyAbstruseIndex backing), and the private language used to normalize
stored formulas and to allocate the retriever variable. -/
structure KnowledgeBase where
  language : Nat
  storage : List LogicObject
  provers : List Prover
  listeners : List Listener

/-- KnowledgeBase._retrieve (src/aitools/proofs/knowledge_base.py lines
62 to 75): for every stored formula returned by the storage (the storage
returns a candidate superset; the trivial backing returns everything),
normalize its variables into the language of the base and unify the
normalized formula with the given one under the previous substitution,
yielding each successful substitution. -/
def KnowledgeBase.retrieveSubstitutions (kb : KnowledgeBase) (formula : LogicObject)
    (previous : Substitution) : List Substitution :=
  kb.storage.filterMap (fun e =>
    Substitution.unify (normalizeVariables e kb.language).fst formula (some previous))

/-- The proof stream of the knowledge retriever: one proof per retrieved
substitution, concluding the goal itself with no premises (construction
shown by the legacy KnowledgeRetriever in src/aitools/proofs/provers.py
lines 7 to 13; the Prover wrapper class is not under src). -/
def KnowledgeBase.knowledgeRetrieverProofs (kb : KnowledgeBase) (formula : LogicObject)
    (previous : Substitution) : AStream Proof :=
  ⟨(kb.retrieveSubstitutions formula previous).map
      (fun s => Proof.mk .knowledgeRetriever formula s []), none⟩

/-- KnowledgeBase.__make_knowledge_retriever
(src/aitools/proofs/knowledge_base.py lines 51 to 60): the built-in
retriever prover listens on a single fresh variable of the private
language of the base, is impure so that it is always invoked, and its
handler retrieves from the storage. -/
def KnowledgeBase.knowledgeRetriever (kb : KnowledgeBase) : Prover :=
  { id := 0
    listened_formula := .var ⟨kb.language, 0⟩
    prove := fun formula previous => kb.knowledgeRetrieverProofs formula previous
    argument_mode := .raw
    pure := false
    safety := .safe }

/-- KnowledgeBase.get_provers_for (src/aitools/proofs/knowledge_base.py
lines 197 to 199): retrieval from the prover index keyed on the formula.
Modelled from the spec: the DummyAbstruseIndex backing is not under src;
a trivial list backing returning a superset of the true unifiers is
permitted (spec section 4.3), so the embedded dummy returns every
registered entry and the caller confirms by unification. -/
def KnowledgeBase.getProversFor (kb : KnowledgeBase) (_formula : LogicObject) : List Prover :=
  kb.provers

/-- KnowledgeBase.get_listeners_for (src/aitools/proofs/knowledge_base.py
lines 193 to 195), with the same trivial index backing. -/
def KnowledgeBase.getListenersFor (kb : KnowledgeBase) (_formula : LogicObject) : List Listener :=
  kb.listeners

/-- KnowledgeBase._prepare_proof_sources
(src/aitools/proofs/knowledge_base.py lines 127 to 143): the multiplex
of the stream of the knowledge retriever and, unless retrieve_only, of
one stream per prover retrieved from the index keyed on the goal. -/
def KnowledgeBase.prepareProofSources (kb : KnowledgeBase) (formula : LogicObject)
    (retrieveOnly : Bool) (previous : Substitution) : AStream Proof :=
  multiplex
    (kb.knowledgeRetriever.prove formula previous ::
      (if retrieveOnly then []
       else (kb.getProversFor formula).map (fun p => p.prove formula previous)))

/-- KnowledgeBase.is_hypothetical (src/aitools/proofs/knowledge_base.py
lines 201 to 203): hypothetical reasoning is unimplemented, the answer
is always false. -/
def KnowledgeBase.isHypothetical (_kb : KnowledgeBase) : Bool :=
  false

/-- KnowledgeBase.__ponder_single_proof
(src/aitools/proofs/knowledge_base.py lines 174 to 191): for each
listener retrieved for the conclusion, build the triggering premise
proof (a TriggeringFormula rule, the substitution applied to the
conclusion, the original proof as only premise) and ponder it; the
listener streams are multiplexed. -/
def KnowledgeBase.ponderSingleProof (kb : KnowledgeBase) (proof : Proof) : AStream Proof :=
  multiplex
    ((kb.getListenersFor proof.conclusion).map (fun l =>
      l.ponder
        (Proof.mk .triggeringFormula (proof.substitution.applyTo proof.conclusion)
          proof.substitution [proof])
        kb.isHypothetical))

/-- Modelled from the spec, section 4.5: the loopback queue of
process_with_loopback (imported by src/aitools/proofs/knowledge_base.py
from aitools.utils.asynctools but not under src).  Proofs produced by
the proving process are processed in arrival order; each proof the
processor produces is emitted and also fed back into the queue; chaining
stops when no source has pending output.  An exception of the processor
propagates.  The fuel bounds the chaining depth, which the source does
not bound. -/
def loopbackRun (processor : Proof → AStream Proof) : Nat → List Proof → AStream Proof
  | 0, _ => ⟨[], none⟩
  | _ + 1, [] => ⟨[], none⟩
  | fuel + 1, p :: pending =>
    let out := processor p
    match out.error with
    | some e => ⟨out.items, some e⟩
    | none =>
      let rest := loopbackRun processor fuel (pending ++ out.items)
      ⟨out.items ++ rest.items, rest.error⟩

/-- Modelled from the spec: process_with_loopback feeds the input
sequence into the loopback loop and emits only what the processor
produces (input proofs are not re-emitted, per the KNOWN mode tests
where a pondered stored formula yields zero proofs). -/
def processWithLoopback (fuel : Nat) (input : AStream Proof)
    (processor : Proof → AStream Proof) : AStream Proof :=
  let rest := loopbackRun processor fuel input.items
  ⟨rest.items, match input.error with | some e => some e | none => rest.error⟩

/-- The value passed for the ponder_mode argument.  Python enums are not
checked at the call boundary, so a caller can pass any value: the three
members of PonderMode (src/aitools/proofs/listeners.py lines 19 to 22)
and a constructor standing for every other value. -/
inductive PonderModeArg where
  | known
  | prove
  | hypothetically
  | other : Nat → PonderModeArg
deriving DecidableEq

/-- KnowledgeBase.__make_proving_process
(src/aitools/proofs/knowledge_base.py lines 155 to 172): HYPOTHETICALLY
raises NotImplementedError; KNOWN multiplexes one retrieve-only proof
stream per formula; PROVE multiplexes one full proof stream per formula;
any other value raises NotImplementedError. -/
def KnowledgeBase.makeProvingProcess (kb : KnowledgeBase) (formulas : List LogicObject)
    (mode : PonderModeArg) : Except PyError (AStream Proof) :=
  match mode with
  | .hypothetically => .error .notImplementedError
  | .known =>
    .ok (multiplex (formulas.map (fun f => kb.prepareProofSources f true Substitution.empty)))
  | .prove =>
    .ok (multiplex (formulas.map (fun f => kb.prepareProofSources f false Substitution.empty)))
  | .other _ => .error .notImplementedError

/-- KnowledgeBase.ponder (src/aitools/proofs/knowledge_base.py lines 145
to 153), as the stream its synchronous iterator produces: an error of
the proving process construction raises before any proof is yielded;
otherwise the proving process runs with loopback through
__ponder_single_proof.  The scheduler bridge is the identity on the
stream of items. -/
def KnowledgeBase.ponder (kb : KnowledgeBase) (formulas : List LogicObject)
    (mode : PonderModeArg) (fuel : Nat) : AStream Proof :=
  match kb.makeProvingProcess formulas mode with
  | .error e => ⟨[], some e⟩
  | .ok proving => processWithLoopback fuel proving kb.ponderSingleProof

/-- The ambient execution state observed by asynctools.is_inside_task:
whether an asyncio event loop is running in the current thread, and
whether a task of that loop is currently executing.  A running task
implies a running loop. -/
structure ExecContext where
  hasRunningLoop : Bool
  insideTask : Bool
deriving DecidableEq

/-- asynctools.is_inside_task (src/aitools/utils/asynctools.py lines 7
to 13): asyncio.current_task raises RuntimeError exactly when no event
loop is running in the current thread, and otherwise returns the running
task or None; the function returns False only in the raising case, so
its answer is exactly whether a loop is running, whether or not a task
is executing. -/
def isInsideTask (ctx : ExecContext) : Bool :=
  ctx.hasRunningLoop

/-- KnowledgeBase.prove (src/aitools/proofs/knowledge_base.py lines 96
to 109): raises RuntimeError when is_inside_task answers true, and
otherwise schedules the proof sources on the scheduler, whose
synchronous bridge is the identity on the stream. -/
def KnowledgeBase.prove (kb : KnowledgeBase) (ctx : ExecContext) (formula : LogicObject)
    (retrieveOnly : Bool) (previous : Option Substitution) : Except PyError (AStream Proof) :=
  if isInsideTask ctx then .error .runtimeError
  else .ok (kb.prepareProofSources formula retrieveOnly (previous.getD Substitution.empty))

/-!
Concrete scenarios from src/tests/proofs/test_listeners.py, used by the
witnesses and counterexamples below.  Constants are identified by
numeric ids: Is 100, Meows 101, cat 102, dylan 103, Are 104, Purrs 105,
the chain predicates A 1, B 2, C 3, D 4 and foo 5.  User variables live
in language 1, knowledge bases in language 2, listeners in languages
above 10.
-/

/-- The ground formula Is(dylan, cat). -/
def isDylanCat : LogicObject := .expr [.const 100, .const 103, .const 102]

/-- The ground formula Meows(dylan). -/
def meowsDylan : LogicObject := .expr [.const 101, .const 103]

/-- The ground formula Purrs(dylan). -/
def purrsDylan : LogicObject := .expr [.const 105, .const 103]

/-- The open formula Is(cat variable, cat) listened on by the cat
listeners of the tests. -/
def listenedIs : LogicObject := .expr [.const 100, .var ⟨1, 0⟩, .const 102]

/-- A handler for the chain tests: upon arguments mapping the trigger
variable to a term, emit the term applied under the given head
constant. -/
def chainHandler (head : Nat) : HandlerArgs → Except PyError PyObj
  | .mapped ((_, .obj t) :: _) => .ok (.term (.expr [.const head, t]))
  | _ => .error .typeError

/-- A chain listener: listens on listensOn applied to a variable and
emits emits applied to the bound value. -/
def mkChainListener (i : Nat) (listensOn : Nat) (emits : Nat) : Listener :=
  { id := i
    language := 10 + i
    listened_formula := .expr [.const listensOn, .var ⟨1, 0⟩]
    handler := chainHandler emits
    argument_mode := .map
    pure := true
    safety := .safe }

/-- The formula A(foo). -/
def aFoo : LogicObject := .expr [.const 1, .const 5]

/-- The formula B(foo). -/
def bFoo : LogicObject := .expr [.const 2, .const 5]

/-- The formula C(foo). -/
def cFoo : LogicObject := .expr [.const 3, .const 5]

/-- The formula D(foo). -/
def dFoo : LogicObject := .expr [.const 4, .const 5]

/-- The knowledge base of test_listener_chain: stored formula A(foo) and
the three chain listeners, added in the order of the test (the B to C
listener first, then A to B, then C to D). -/
def kbChain : KnowledgeBase :=
  { language := 2
    storage := [aFoo]
    provers := []
    listeners := [mkChainListener 2 2 3, mkChainListener 1 1 2, mkChainListener 3 3 4] }

/-- The succeeding listener of
test_listener_exceptions_make_the_whole_thing_fail: cats meow. -/
def succeedingListener : Listener :=
  { id := 1
    language := 21
    listened_formula := listenedIs
    handler := chainHandler 101
    argument_mode := .map
    pure := true
    safety := .totallyUnsafe }

/-- The failing listener of the same test: raises SomeException (carried
here as handler exception code 7) whenever invoked. -/
def failingListener : Listener :=
  { id := 2
    language := 22
    listened_formula := .expr [.const 100, .var ⟨1, 1⟩, .const 102]
    handler := fun _ => .error (.handlerException 7)
    argument_mode := .map
    pure := true
    safety := .totallyUnsafe }

/-- The knowledge base of the exception test: Is(dylan, cat) stored, the
succeeding listener added before the failing one. -/
def kbFail : KnowledgeBase :=
  { language := 2
    storage := [isDylanCat]
    provers := []
    listeners := [succeedingListener, failingListener] }

/-- A knowledge base holding only Is(dylan, cat), for the retrieval
witnesses. -/
def kbRetrieve : KnowledgeBase :=
  { language := 2
    storage := [isDylanCat]
    provers := []
    listeners := [] }

/-- A triggering premise proof for Is(dylan, cat), as built by
__ponder_single_proof from the retrieval proof of the stored formula. -/
def triggerW : Proof :=
  Proof.mk .triggeringFormula isDylanCat Substitution.empty
    [Proof.mk .knowledgeRetriever isDylanCat Substitution.empty []]

/-- A listener whose handler returns the single term Meows(dylan). -/
def singleListener : Listener :=
  { id := 5
    language := 31
    listened_formula := listenedIs
    handler := fun _ => .ok (.term meowsDylan)
    argument_mode := .map
    pure := true
    safety := .safe }

/-- The unifier of Is(dylan, cat) against the normalization of the
listened formula of singleListener into language 31. -/
def uSingle : Substitution := ⟨[⟨[⟨31, 0⟩], some (.const 103)⟩]⟩

/-- The extracted arguments of singleListener at that unifier. -/
def argsSingle : HandlerArgs := .mapped [(⟨1, 0⟩, .obj (.const 103))]

/-- The open formula Are(first cat variable, second cat variable, cat)
of the argument mode tests. -/
def listenedAre : LogicObject := .expr [.const 104, .var ⟨1, 0⟩, .var ⟨1, 1⟩, .const 102]

/-- The ground formula Are(dylan, wrapped hugo, cat): its second
argument is a Wrapper, its first is not. -/
def areDylanHugo : LogicObject :=
  .expr [.const 104, .const 103, .wrap (.str "hugo"), .const 102]

/-- The MAP_UNWRAPPED_REQUIRED listener of
test_listener_argument_mode_map_unwrapped_required_fails_if_input_is_not_wrapped. -/
def requiredListener : Listener :=
  { id := 7
    language := 41
    listened_formula := listenedAre
    handler := fun _ => .ok (.term meowsDylan)
    argument_mode := .mapUnwrappedRequired
    pure := true
    safety := .totallyUnsafe }

/-- A triggering premise proof for Are(dylan, wrapped hugo, cat). -/
def triggerAre : Proof :=
  Proof.mk .triggeringFormula areDylanHugo Substitution.empty
    [Proof.mk .knowledgeRetriever areDylanHugo Substitution.empty []]

/-- The unifier of Are(dylan, wrapped hugo, cat) against the
normalization of listenedAre into language 41. -/
def uAre : Substitution :=
  ⟨[⟨[⟨41, 1⟩], some (.wrap (.str "hugo"))⟩, ⟨[⟨41, 0⟩], some (.const 103)⟩]⟩

/-- A listener whose handler returns a pair of LogicObjects, as in
test_listener_multiple_formulas_returned. -/
def pairListener : Listener :=
  { id := 8
    language := 51
    listened_formula := listenedIs
    handler := fun _ => .ok (.tup [.term meowsDylan, .term purrsDylan])
    argument_mode := .map
    pure := true
    safety := .safe }

/-- The unifier of Is(dylan, cat) against the normalization of the
listened formula of pairListener into language 51. -/
def uPair : Substitution := ⟨[⟨[⟨51, 0⟩], some (.const 103)⟩]⟩

/-- The extracted arguments of pairListener at that unifier. -/
def argsPair : HandlerArgs := .mapped [(⟨1, 0⟩, .obj (.const 103))]

/-- An empty knowledge base. -/
def kbEmpty : KnowledgeBase :=
  { language := 0
    storage := []
    provers := []
    listeners := [] }

/-!
Helper lemmas shared by the claim theorems.
-/

/-- Membership in a multiplexed stream is membership in one of its
sources. -/
theorem mem_multiplex {α : Type} (sources : List (AStream α)) (x : α) :
    x ∈ (multiplex sources).items ↔ ∃ s ∈ sources, x ∈ s.items := by
  simp only [multiplex, List.mem_flatten, List.mem_map]
  constructor
  · rintro ⟨l, ⟨s, hs, rfl⟩, hx⟩
    exact ⟨s, hs, hx⟩
  · rintro ⟨s, hs, hx⟩
    exact ⟨s.items, ⟨s, hs, rfl⟩, hx⟩

/-- The length of a filterMap is the number of elements on which the
function succeeds. -/
theorem length_filterMap_isSome {α β : Type} (f : α → Option β) (l : List α) :
    (l.filterMap f).length = (l.filter (fun a => (f a).isSome)).length := by
  induction l with
  | nil => rfl
  | cons a l ih => cases h : f a <;> simp [List.filterMap_cons, List.filter_cons, h, ih]

/-- Every proof produced from a list of handler items carries the
Pondering rule of the listener and a nonempty premises tuple whose tail
is the extra premises of its item. -/
theorem itemsToProofs_shape (lid : Nat) (formula : LogicObject) (u : Substitution)
    (prev : Proof) (items : List PyObj) :
    ∀ p ∈ (itemsToProofs lid formula u prev items).items,
      p.inferenceRule = .pondering lid formula ∧
        ∃ head extra, p.premises = head :: extra := by
  induction items generalizing prev with
  | nil => intro p hp; simp [itemsToProofs] at hp
  | cons item rest ih =>
    intro p hp
    rw [itemsToProofs] at hp
    cases hi : interpretItem u item with
    | error e => rw [hi] at hp; simp at hp
    | ok cps =>
      obtain ⟨c, s, ps⟩ := cps
      rw [hi] at hp
      simp only [List.mem_cons] at hp
      rcases hp with rfl | hp
      · exact ⟨rfl, prev, ps, rfl⟩
      · exact ih _ p hp

/-- The chaining of first premises along the items of one firing: the
head of the premises of each emitted proof is the previous value of the
rebound loop variable, so the sequence of premise heads is the initial
proof followed by all emitted proofs but the last. -/
theorem itemsToProofs_chain (lid : Nat) (formula : LogicObject) (u : Substitution)
    (prev : Proof) (items : List PyObj) :
    (itemsToProofs lid formula u prev items).items.map (fun p => p.premises.head?) =
      ((prev :: (itemsToProofs lid formula u prev items).items).dropLast).map some := by
  induction items generalizing prev with
  | nil => rfl
  | cons item rest ih =>
    rw [itemsToProofs]
    cases hi : interpretItem u item with
    | error e => rfl
    | ok cps =>
      obtain ⟨c, s, ps⟩ := cps
      exact congrArg (List.cons (some prev))
        (ih (Proof.mk (.pondering lid formula) c s (prev :: ps)))

/-- A list of handler items that are all plain LogicObjects produces one
proof per item, in order, each concluding its item under the trigger
unifier with the Pondering rule of the listener, and no error. -/
theorem itemsToProofs_parts (lid : Nat) (formula : LogicObject) (u : Substitution)
    (prev : Proof) (ts : List LogicObject) :
    (itemsToProofs lid formula u prev (ts.map PyObj.term)).error = none ∧
    (itemsToProofs lid formula u prev (ts.map PyObj.term)).items.map Proof.conclusion = ts ∧
    (itemsToProofs lid formula u prev (ts.map PyObj.term)).items.map Proof.substitution =
      ts.map (fun _ => u) ∧
    (itemsToProofs lid formula u prev (ts.map PyObj.term)).items.map Proof.inferenceRule =
      ts.map (fun _ => InferenceRule.pondering lid formula) := by
  induction ts generalizing prev with
  | nil => exact ⟨rfl, rfl, rfl, rfl⟩
  | cons c cs ih =>
    obtain ⟨h1, h2, h3, h4⟩ := ih (Proof.mk (.pondering lid formula) c u (prev :: []))
    refine ⟨?_, ?_, ?_, ?_⟩ <;>
      simp [itemsToProofs, interpretItem, h1, h2, h3, h4,
        Proof.conclusion, Proof.substitution, Proof.inferenceRule]

/-- A list of terms wrapped as PyObj items passes the isinstance check
against LogicObject elementwise. -/
theorem all_isLogicObject_map_term (ts : List LogicObject) :
    (ts.map PyObj.term).all PyObj.isLogicObject = true := by
  induction ts with
  | nil => rfl
  | cons c ts ih => simp [PyObj.isLogicObject, ih]

/-!
The claim theorems.
-/

/-- C1: for every knowledge base the built-in knowledge retriever has a
listened_formula that is a single fresh variable (of the private
language of the base) and pure false, and for every goal and previous
substitution it yields exactly one proof per stored formula whose
normalized form unifies with the goal under the previous substitution
(the count of proofs equals the count of unifying stored formulas);
hence every formula in the store that unifies with a query appears in at
least one retriever proof. -/
theorem c1_knowledge_retriever (kb : KnowledgeBase) (goal : LogicObject)
    (previous : Substitution) :
    kb.knowledgeRetriever.listened_formula = .var ⟨kb.language, 0⟩ ∧
    kb.knowledgeRetriever.pure = false ∧
    (kb.knowledgeRetriever.prove goal previous).items.length =
      (kb.storage.filter (fun f =>
        (Substitution.unify (normalizeVariables f kb.language).fst goal (some previous)).isSome)).length ∧
    ∀ f ∈ kb.storage,
      ∀ s, Substitution.unify (normalizeVariables f kb.language).fst goal (some previous) = some s →
        Proof.mk .knowledgeRetriever goal s [] ∈ (kb.knowledgeRetriever.prove goal previous).items := by
  refine ⟨rfl, rfl, ?_, ?_⟩
  · show ((kb.retrieveSubstitutions goal previous).map
        (fun s => Proof.mk .knowledgeRetriever goal s [])).length = _
    rw [List.length_map, KnowledgeBase.retrieveSubstitutions, length_filterMap_isSome]
  · intro f hf s hs
    show Proof.mk .knowledgeRetriever goal s [] ∈
      (kb.retrieveSubstitutions goal previous).map (fun s => Proof.mk .knowledgeRetriever goal s [])
    exact List.mem_map.mpr
      ⟨s, List.mem_filterMap.mpr ⟨f, hf, hs⟩, rfl⟩

/-- C1 witness: in the knowledge base storing Is(dylan, cat), that
stored formula unifies with the goal Is(dylan, cat) under the empty
previous substitution with the empty unifier, and the corresponding
retriever proof is among the retriever proofs. -/
theorem c1_knowledge_retriever_witness :
    Proof.mk .knowledgeRetriever isDylanCat ⟨[]⟩ [] ∈
      (kbRetrieve.knowledgeRetriever.prove isDylanCat Substitution.empty).items :=
  (c1_knowledge_retriever kbRetrieve isDylanCat Substitution.empty).2.2.2
    isDylanCat (by decide) ⟨[]⟩ (by decide)

/-- C2: evaluation of the scenario of
test_listener_exceptions_make_the_whole_thing_fail.  The failing
listener does raise when fired on the triggering proof of Is(dylan,
cat), that listener is registered in the base, and yet the stream the
ponder iterator produces completes without any exception and yields the
proof of the surviving listener: the exception of the collect task
spawned by multiplex is never awaited and thus never reaches the
synchronous iterator, contradicting the claim (and the test). -/
theorem c2_handler_exception_swallowed :
    failingListener.ponder triggerW kbFail.isHypothetical =
      ⟨[], some (.handlerException 7)⟩ ∧
    failingListener ∈ kbFail.listeners ∧
    (kbFail.ponder [isDylanCat] .known 10).error = none ∧
    (kbFail.ponder [isDylanCat] .known 10).items.map Proof.conclusion = [meowsDylan] := by
  refine ⟨rfl, List.Mem.tail _ (List.Mem.head _), rfl, by decide⟩

/-- C3: the proof stream of prove is the multiplex of the knowledge
retriever stream plus, exactly when retrieve_only is false, one stream
per prover retrieved from the prover index keyed on the goal; ponder in
KNOWN mode proves each input formula with retrieve_only true, PROVE mode
with retrieve_only false. -/
theorem c3_proof_sources (kb : KnowledgeBase) (goal : LogicObject)
    (previous : Substitution) (formulas : List LogicObject) :
    (kb.prepareProofSources goal true previous).items =
      (kb.knowledgeRetriever.prove goal previous).items ∧
    (∀ p : Proof,
      p ∈ (kb.prepareProofSources goal false previous).items ↔
        p ∈ (kb.knowledgeRetriever.prove goal previous).items ∨
          ∃ pr ∈ kb.getProversFor goal, p ∈ (pr.prove goal previous).items) ∧
    kb.makeProvingProcess formulas .known =
      .ok (multiplex (formulas.map (fun f => kb.prepareProofSources f true Substitution.empty))) ∧
    kb.makeProvingProcess formulas .prove =
      .ok (multiplex (formulas.map (fun f => kb.prepareProofSources f false Substitution.empty))) := by
  refine ⟨?_, ?_, rfl, rfl⟩
  · show (multiplex [kb.knowledgeRetriever.prove goal previous]).items = _
    simp [multiplex]
  · intro p
    rw [show kb.prepareProofSources goal false previous =
        multiplex (kb.knowledgeRetriever.prove goal previous ::
          (kb.getProversFor goal).map (fun pr => pr.prove goal previous)) from rfl]
    rw [mem_multiplex]
    constructor
    · rintro ⟨s, hs, hx⟩
      rcases List.mem_cons.mp hs with rfl | hs2
      · exact Or.inl hx
      · rcases List.mem_map.mp hs2 with ⟨pr, hpr, rfl⟩
        exact Or.inr ⟨pr, hpr, hx⟩
    · rintro (hx | ⟨pr, hpr, hx⟩)
      · exact ⟨_, List.mem_cons_self _ _, hx⟩
      · exact ⟨_, List.mem_cons_of_mem _ (List.mem_map_of_mem _ hpr), hx⟩

/-- C3 witness: in the knowledge base storing Is(dylan, cat), the
retriever proof of Is(dylan, cat) is among the items of the full proof
stream with retrieve_only false. -/
theorem c3_proof_sources_witness :
    Proof.mk .knowledgeRetriever isDylanCat ⟨[]⟩ [] ∈
      (kbRetrieve.prepareProofSources isDylanCat false Substitution.empty).items :=
  ((c3_proof_sources kbRetrieve isDylanCat Substitution.empty []).2.1 _).mpr
    (Or.inl (by
      rw [show (kbRetrieve.knowledgeRetriever.prove isDylanCat Substitution.empty).items =
        [Proof.mk .knowledgeRetriever isDylanCat ⟨[]⟩ []] from rfl]
      exact List.Mem.head _))

/-- C5: invoking ponder with ponder_mode HYPOTHETICALLY raises
NotImplementedError, and invoking it with any value that is not KNOWN,
PROVE or HYPOTHETICALLY raises NotImplementedError as well; in both
cases no proofs are yielded. -/
theorem c5_hypothetically_raises (kb : KnowledgeBase) (formulas : List LogicObject)
    (fuel : Nat) (x : Nat) :
    kb.ponder formulas .hypothetically fuel = ⟨[], some .notImplementedError⟩ ∧
    kb.ponder formulas (.other x) fuel = ⟨[], some .notImplementedError⟩ :=
  ⟨rfl, rfl⟩

/-- C6 counterexample: the reentrancy check of prove detects a running
event loop, not a running task; in an execution context with a running
loop but no current task (for example a plain callback scheduled on the
loop of the scheduler) the call is outside any task and still raises
RuntimeError, so the claim that calls made from outside any task do not
raise is false at this input. -/
theorem c6_reentrancy_counterexample :
    (ExecContext.mk true false).insideTask = false ∧
    kbEmpty.prove ⟨true, false⟩ isDylanCat false none = .error .runtimeError :=
  ⟨rfl, rfl⟩

/-- C6 (amended): every call to prove made from within a task running on
the scheduler raises RuntimeError and yields no proof, and every call
made from a thread with no running event loop does not raise; a call
made on the event loop thread outside any task, however, also raises,
because is_inside_task reports whether a loop is running rather than
whether a task is. -/
theorem c6_reentrancy_amended (kb : KnowledgeBase) (ctx : ExecContext)
    (formula : LogicObject) (retrieveOnly : Bool) (previous : Option Substitution)
    (hctx : ctx.insideTask = true → ctx.hasRunningLoop = true) :
    (ctx.insideTask = true → kb.prove ctx formula retrieveOnly previous = .error .runtimeError) ∧
    (ctx.hasRunningLoop = false →
      kb.prove ctx formula retrieveOnly previous =
        .ok (kb.prepareProofSources formula retrieveOnly (previous.getD Substitution.empty))) := by
  constructor
  · intro h
    simp [KnowledgeBase.prove, isInsideTask, hctx h]
  · intro h
    simp [KnowledgeBase.prove, isInsideTask, h]

/-- C6 witness: a call from inside a task raises RuntimeError, a call
from a thread with no running loop succeeds. -/
theorem c6_reentrancy_witness :
    kbEmpty.prove ⟨true, true⟩ isDylanCat false none = .error .runtimeError ∧
    kbEmpty.prove ⟨false, false⟩ isDylanCat false none =
      .ok (kbEmpty.prepareProofSources isDylanCat false Substitution.empty) :=
  ⟨(c6_reentrancy_amended kbEmpty ⟨true, true⟩ isDylanCat false none (fun _ => rfl)).1 rfl,
   (c6_reentrancy_amended kbEmpty ⟨false, false⟩ isDylanCat false none (fun h => h)).2 rfl⟩

/-- Every proof produced from a handled result carries the Pondering
rule of the listener and a nonempty premises tuple. -/
theorem handleResult_shape (lid : Nat) (formula : LogicObject) (u : Substitution)
    (trigger : Proof) (result : PyObj) :
    ∀ p ∈ (handleResult lid formula u trigger result).items,
      p.inferenceRule = .pondering lid formula ∧
        ∃ head extra, p.premises = head :: extra := by
  intro p hp
  cases result with
  | pyNone => simp [handleResult] at hp
  | term x =>
    exact itemsToProofs_shape lid formula u trigger [.term x] p hp
  | substObj x => simp [handleResult, resultToItems, shouldWrapSingle] at hp
  | proofObj x => simp [handleResult, resultToItems, shouldWrapSingle] at hp
  | fs x y =>
    exact itemsToProofs_shape lid formula u trigger [.fs x y] p hp
  | fsp x y z =>
    exact itemsToProofs_shape lid formula u trigger [.fsp x y z] p hp
  | tup xs =>
    rw [show handleResult lid formula u trigger (.tup xs) =
        match resultToItems (.tup xs) with
        | .error e => ⟨[], some e⟩
        | .ok items => itemsToProofs lid formula u trigger items from rfl] at hp
    rcases hri : resultToItems (.tup xs) with e | items
    · rw [hri] at hp; simp at hp
    · rw [hri] at hp; exact itemsToProofs_shape lid formula u trigger items p hp
  | pyList xs =>
    exact itemsToProofs_shape lid formula u trigger xs p hp

/-- The chaining of first premises over a handled result: the premise
heads of the emitted proofs are the triggering proof followed by all
emitted proofs but the last. -/
theorem handleResult_chain (lid : Nat) (formula : LogicObject) (u : Substitution)
    (trigger : Proof) (result : PyObj) :
    (handleResult lid formula u trigger result).items.map (fun p => p.premises.head?) =
      ((trigger :: (handleResult lid formula u trigger result).items).dropLast).map some := by
  cases result with
  | pyNone => rfl
  | term x => exact itemsToProofs_chain lid formula u trigger [.term x]
  | substObj x => rfl
  | proofObj x => rfl
  | fs x y => exact itemsToProofs_chain lid formula u trigger [.fs x y]
  | fsp x y z => exact itemsToProofs_chain lid formula u trigger [.fsp x y z]
  | tup xs =>
    rw [show handleResult lid formula u trigger (.tup xs) =
        match resultToItems (.tup xs) with
        | .error e => ⟨[], some e⟩
        | .ok items => itemsToProofs lid formula u trigger items from rfl]
    rcases hri : resultToItems (.tup xs) with e | items
    · rfl
    · exact itemsToProofs_chain lid formula u trigger items
  | pyList xs => exact itemsToProofs_chain lid formula u trigger xs

/-- C4 counterexample: the pair returning listener fired on the
triggering proof of Is(dylan, cat) emits two proofs; the premises of the
first are the triggering proof alone, but the premises of the second are
the first emitted proof alone, which is not the triggering proof: the
source rebinds the loop variable holding the triggering proof to each
emitted proof, so the claim that every emitted proof has the triggering
proof first in its premises is false at this input. -/
theorem c4_premises_counterexample :
    (pairListener.ponder triggerW false).items.map Proof.premises =
      [[triggerW],
       [Proof.mk (.pondering 8 isDylanCat) meowsDylan uPair [triggerW]]] ∧
    Proof.mk (.pondering 8 isDylanCat) meowsDylan uPair [triggerW] ≠ triggerW :=
  ⟨rfl, fun h => absurd (congrArg Proof.inferenceRule h) (by decide)⟩

/-- C4 (amended): every proof emitted by a fired listener has the
Pondering record of the listener tagged with the triggering formula as
inference rule and a premises tuple that is one proof followed by the
extra premises of its handler item; the first premises chain, the first
emitted proof carrying the triggering proof and every later one the
previously emitted proof (the source rebinds the loop variable across
items); when the handler returns a single term t, the one emitted proof
has conclusion t, substitution the trigger unifier, and premises exactly
the triggering proof. -/
theorem c4_listener_emission (l : Listener) (trigger : Proof) (u : Substitution)
    (args : HandlerArgs) (t : LogicObject)
    (hu : Substitution.unify trigger.conclusion
        (normalizeVariables l.listened_formula l.language).fst (some trigger.substitution) = some u)
    (ha : extractArgsByName l.argument_mode trigger.conclusion u
        (normalizeVariables l.listened_formula l.language).snd = .ok args) :
    (∀ p ∈ (l.ponder trigger false).items,
      p.inferenceRule = .pondering l.id trigger.conclusion ∧
        ∃ head extra, p.premises = head :: extra) ∧
    ((l.ponder trigger false).items.map (fun p => p.premises.head?) =
      ((trigger :: (l.ponder trigger false).items).dropLast).map some) ∧
    (l.handler args = .ok (.term t) →
      l.ponder trigger false =
        ⟨[Proof.mk (.pondering l.id trigger.conclusion) t u [trigger]], none⟩) := by
  have hbody : l.ponder trigger false = l.ponderBody trigger := rfl
  refine ⟨?_, ?_, ?_⟩
  · cases hh : l.handler args with
    | error e =>
      have hstream : l.ponder trigger false = ⟨[], some e⟩ := by
        rw [hbody]; simp only [Listener.ponderBody, hu, ha, hh]
      rw [hstream]; intro p hp; simp at hp
    | ok result =>
      have hstream : l.ponder trigger false =
          handleResult l.id trigger.conclusion u trigger result := by
        rw [hbody]; simp only [Listener.ponderBody, hu, ha, hh]
      rw [hstream]
      exact handleResult_shape l.id trigger.conclusion u trigger result
  · cases hh : l.handler args with
    | error e =>
      have hstream : l.ponder trigger false = ⟨[], some e⟩ := by
        rw [hbody]; simp only [Listener.ponderBody, hu, ha, hh]
      rw [hstream]; rfl
    | ok result =>
      have hstream : l.ponder trigger false =
          handleResult l.id trigger.conclusion u trigger result := by
        rw [hbody]; simp only [Listener.ponderBody, hu, ha, hh]
      rw [hstream]
      exact handleResult_chain l.id trigger.conclusion u trigger result
  · intro hh
    rw [hbody]
    simp only [Listener.ponderBody, hu, ha, hh, handleResult, resultToItems,
      shouldWrapSingle, itemsToProofs, interpretItem, if_true]

/-- C4 witness: the single result listener of
test_listener_single_result, fired on the triggering proof of Is(dylan,
cat), emits the one proof concluding Meows(dylan) under the trigger
unifier with the triggering proof as only premise. -/
theorem c4_listener_emission_witness :
    singleListener.ponder triggerW false =
      ⟨[Proof.mk (.pondering 5 isDylanCat) meowsDylan uSingle [triggerW]], none⟩ :=
  (c4_listener_emission singleListener triggerW uSingle argsSingle meowsDylan rfl rfl).2.2 rfl

/-- C7: a fired listener whose argument mode constraint is violated
produces zero proofs and raises nothing: MAP_UNWRAPPED_REQUIRED with
some bound value that is not a Wrapper, and MAP_NO_VARIABLES with some
bound value that is a Variable, make the argument extraction refuse, and
a refused extraction makes ponder yield the empty stream with no
error. -/
theorem c7_argument_mode_refusal (l : Listener) (trigger : Proof) (u : Substitution)
    (hu : Substitution.unify trigger.conclusion
        (normalizeVariables l.listened_formula l.language).fst (some trigger.substitution) = some u) :
    ((l.argument_mode = .mapUnwrappedRequired ∧
        ((normalizeVariables l.listened_formula l.language).snd.map (mappedBound u)).all
          isWrapperObj = false) ∨
      (l.argument_mode = .mapNoVariables ∧
        ((normalizeVariables l.listened_formula l.language).snd.map (mappedBound u)).any
          isVariableObj = true) →
      extractArgsByName l.argument_mode trigger.conclusion u
        (normalizeVariables l.listened_formula l.language).snd = .error ()) ∧
    (extractArgsByName l.argument_mode trigger.conclusion u
        (normalizeVariables l.listened_formula l.language).snd = .error () →
      l.ponder trigger false = ⟨[], none⟩) := by
  constructor
  · rintro (⟨hm, hall⟩ | ⟨hm, hany⟩)
    · rw [hm]; simp [extractArgsByName, hall]
    · rw [hm]; simp [extractArgsByName, hany]
  · intro he
    have hbody : l.ponder trigger false = l.ponderBody trigger := rfl
    rw [hbody]
    simp only [Listener.ponderBody, hu, he]

/-- C7 witness: the MAP_UNWRAPPED_REQUIRED listener fired on Are(dylan,
wrapped hugo, cat), where the first bound value is not a Wrapper,
refuses to extract arguments and ponders to the empty stream with no
error. -/
theorem c7_argument_mode_refusal_witness :
    extractArgsByName requiredListener.argument_mode triggerAre.conclusion uAre
      (normalizeVariables requiredListener.listened_formula requiredListener.language).snd =
        .error () ∧
    requiredListener.ponder triggerAre false = ⟨[], none⟩ :=
  ⟨(c7_argument_mode_refusal requiredListener triggerAre uAre rfl).1 (Or.inl ⟨rfl, rfl⟩),
   (c7_argument_mode_refusal requiredListener triggerAre uAre rfl).2 rfl⟩

/-- C8: as long as is_hypothetical always answers false, the safety gate
is a no-op: a TOTALLY_UNSAFE listener ponders exactly as the same
listener marked SAFE, and the outcome is that of the ungated body, so
the UnsafeOperationException branch is unreachable. -/
theorem c8_safety_gate_noop (kb : KnowledgeBase) (l : Listener) (p : Proof)
    (hsafe : l.safety = .totallyUnsafe) :
    kb.isHypothetical = false ∧
    l.ponder p kb.isHypothetical =
      { l with safety := HandlerSafety.safe }.ponder p kb.isHypothetical ∧
    l.ponder p kb.isHypothetical = l.ponderBody p := by
  cases l
  exact ⟨rfl, rfl, rfl⟩

/-- C8 witness: the totally unsafe succeeding listener of the exception
test ponders on the triggering proof of Is(dylan, cat) exactly as its
safe copy, through the ungated body. -/
theorem c8_safety_gate_noop_witness :
    kbFail.isHypothetical = false ∧
    succeedingListener.ponder triggerW kbFail.isHypothetical =
      { succeedingListener with safety := HandlerSafety.safe }.ponder triggerW
        kbFail.isHypothetical ∧
    succeedingListener.ponder triggerW kbFail.isHypothetical =
      succeedingListener.ponderBody triggerW :=
  c8_safety_gate_noop kbFail succeedingListener triggerW rfl

/-- C9: in the knowledge base with the listener chain A to B, B to C, C
to D and the stored formula A(foo), pondering A(foo) in KNOWN mode emits
exactly the conclusions B(foo), C(foo), D(foo), in that order, and
raises nothing. -/
theorem c9_listener_chain :
    (kbChain.ponder [aFoo] .known 10).items.map Proof.conclusion = [bFoo, cFoo, dFoo] ∧
    (kbChain.ponder [aFoo] .known 10).error = none :=
  ⟨by decide, rfl⟩

/-- The decomposition of a tuple made only of LogicObjects: it is not
wrapped as a single item, so its elements become independent items. -/
theorem resultToItems_all_terms (ts : List LogicObject) :
    resultToItems (.tup (ts.map PyObj.term)) = .ok (ts.map PyObj.term) := by
  simp [resultToItems, shouldWrapSingle, all_isLogicObject_map_term]

/-- C10: a handler returning a tuple of length two or three in which
every element is a LogicObject emits one single-term proof per element,
in order: each emitted proof concludes its own element under the trigger
unifier with the Pondering rule of the listener and no error is raised,
so the tuple is not read as a (formula, substitution) pair or a
(formula, substitution, premises) triple; a two-tuple with a
non-LogicObject element is instead interpreted as the conclusion and
substitution pair.  (The premises of the per-element proofs chain
through the previously emitted proof, as established with C4.) -/
theorem c10_tuple_of_terms (l : Listener) (trigger : Proof) (u : Substitution)
    (args : HandlerArgs) (ts : List LogicObject) (t : LogicObject) (s : Substitution)
    (hu : Substitution.unify trigger.conclusion
        (normalizeVariables l.listened_formula l.language).fst (some trigger.substitution) = some u)
    (ha : extractArgsByName l.argument_mode trigger.conclusion u
        (normalizeVariables l.listened_formula l.language).snd = .ok args) :
    (l.handler args = .ok (.tup (ts.map PyObj.term)) → ts.length = 2 ∨ ts.length = 3 →
      (l.ponder trigger false).error = none ∧
      (l.ponder trigger false).items.map Proof.conclusion = ts ∧
      (l.ponder trigger false).items.map Proof.substitution = ts.map (fun _ => u) ∧
      (l.ponder trigger false).items.map Proof.inferenceRule =
        ts.map (fun _ => InferenceRule.pondering l.id trigger.conclusion)) ∧
    (l.handler args = .ok (.tup [.term t, .substObj s]) →
      l.ponder trigger false =
        ⟨[Proof.mk (.pondering l.id trigger.conclusion) t s [trigger]], none⟩) := by
  have hbody : l.ponder trigger false = l.ponderBody trigger := rfl
  constructor
  · intro hh _
    have hstream : l.ponder trigger false =
        handleResult l.id trigger.conclusion u trigger (.tup (ts.map PyObj.term)) := by
      rw [hbody]; simp only [Listener.ponderBody, hu, ha, hh]
    rw [hstream]
    rw [show handleResult l.id trigger.conclusion u trigger (.tup (ts.map PyObj.term)) =
        match resultToItems (.tup (ts.map PyObj.term)) with
        | .error e => ⟨[], some e⟩
        | .ok items => itemsToProofs l.id trigger.conclusion u trigger items from rfl]
    rw [resultToItems_all_terms]
    exact itemsToProofs_parts l.id trigger.conclusion u trigger ts
  · intro hh
    rw [hbody]
    simp only [Listener.ponderBody, hu, ha, hh, handleResult, resultToItems,
      shouldWrapSingle, PyObj.isLogicObject, itemsToProofs, interpretItem,
      List.all_cons, List.all_nil, List.length_cons, List.length_nil,
      decide_True, Bool.true_or, Bool.or_true, Bool.false_and, Bool.true_and,
      Bool.and_false, Bool.and_true, Bool.not_false, if_true, if_false]

/-- C10 witness: the pair returning listener of
test_listener_multiple_formulas_returned, fired on the triggering proof
of Is(dylan, cat), emits without error exactly two single-term proofs
concluding Meows(dylan) and Purrs(dylan), in order, both under the
trigger unifier and both with the Pondering rule of the listener. -/
theorem c10_tuple_of_terms_witness :
    (pairListener.ponder triggerW false).error = none ∧
    (pairListener.ponder triggerW false).items.map Proof.conclusion =
      [meowsDylan, purrsDylan] ∧
    (pairListener.ponder triggerW false).items.map Proof.substitution = [uPair, uPair] ∧
    (pairListener.ponder triggerW false).items.map Proof.inferenceRule =
      [.pondering 8 isDylanCat, .pondering 8 isDylanCat] :=
  (c10_tuple_of_terms pairListener triggerW uPair argsPair [meowsDylan, purrsDylan]
      meowsDylan uPair rfl rfl).1 rfl (Or.inl rfl)

end Aitools
